import Mathlib

/-!
Verification of the splyt-backend split/auth services.

Shallow embedding of the TypeScript sources:
* `src/services/split/split.service.ts` (two variants: the real blockchain
  path and the mock/placeholder path),
* the Split model statics and methods (split.model),
* the User model statics (users.model),
* `src/services/auth/auth.service.ts`.

Modelling conventions:
* JS strings are `List Char`; `String.prototype.toLowerCase` is `jsToLower`
  (ASCII case mapping, which is all that matters for hex addresses).
* JS numbers used as money are exact rationals `ℚ`; ids/blocks/times are `Nat`.
* The document database is a plain list of documents; the Mongoose statics
  (`findBySplitId`, `findByTxHash`, `findByCreator`, `findByParticipant`,
  `findByWallet`) are translated to list queries.  MongoDB applies `skip`
  before `limit` regardless of builder order, and a `0` value for
  `limit`/`skip` is falsy in the JS guards, so it disables the stage.
* External collaborators are parameters: the blockchain deployment is an
  `Except` value, the persistence layer success is a `Bool`, signature
  recovery (`ethers.verifyMessage`, which may throw) is a
  `Str → Str → Option Str` oracle, and `generateNameFromAddress` (a util
  outside the split/auth sources) is a `Str → Str` parameter.
* `throw new Error(...)` becomes `Except.error` with an inductive error code
  standing for the distinct thrown messages.
-/

/-- JS strings, modelled as character lists. -/
abbrev Str := List Char

/-- `String.prototype.toLowerCase`, restricted to the ASCII mapping
(`A`-`Z` ↦ `a`-`z`), which is exhaustive on the hex-address alphabet the
code validates. -/
def jsToLower (s : Str) : Str := s.map Char.toLower

/-- Character class `[a-fA-F0-9]` of the address/signature regexes. -/
def isHexChar (c : Char) : Bool :=
  (48 ≤ c.toNat && c.toNat ≤ 57) || (97 ≤ c.toNat && c.toNat ≤ 102) ||
    (65 ≤ c.toNat && c.toNat ≤ 70)

/-- Character class `[0-9a-f]` (lower-case hex only). -/
def isLowerHexChar (c : Char) : Bool :=
  (48 ≤ c.toNat && c.toNat ≤ 57) || (97 ≤ c.toNat && c.toNat ≤ 102)

/-- The test `/^0x[a-fA-F0-9]{40}$/.test s` used for wallet and contract
addresses throughout the sources. -/
def matchesAddrRegex (s : Str) : Bool :=
  match s with
  | c0 :: c1 :: rest => c0 == '0' && c1 == 'x' && rest.length == 40 && rest.all isHexChar
  | _ => false

/-- The regex `/^0x[0-9a-f]{40}$/` from the spec sentence about normalized
addresses. -/
def matchesLowerAddrRegex (s : Str) : Bool :=
  match s with
  | c0 :: c1 :: rest => c0 == '0' && c1 == 'x' && rest.length == 40 && rest.all isLowerHexChar
  | _ => false

/-- The test `/^0x[a-fA-F0-9]{130}$/.test signature` from
`auth.service.ts`. -/
def matchesSigRegex (s : Str) : Bool :=
  match s with
  | c0 :: c1 :: rest => c0 == '0' && c1 == 'x' && rest.length == 130 && rest.all isHexChar
  | _ => false

/-- Address normalization used everywhere in the sources:
`walletAddress.toLowerCase()`. -/
def normalizeAddress (a : Str) : Str := jsToLower a

/-- Split lifecycle status (split.model `status` enum). -/
inductive SplitStatus
  | pending
  | active
  | completed
  | cancelled
deriving DecidableEq, Repr

/-- Embedded participant subdocument (split.model `IParticipant`). -/
structure Participant where
  walletAddress : Str
  name : Option Str
  amountDue : ℚ
  hasPaid : Bool
  paidAt : Option Nat
  paymentTxHash : Option Str
  reminderCount : Nat
  lastRemindedAt : Option Nat
deriving DecidableEq, Repr

/-- A split document (split.model `ISplit`), with `createdAt` and the other
timestamps abstracted to `Nat`. -/
structure SplitDoc where
  splitId : Nat
  contractAddress : Str
  txHash : Str
  blockNumber : Nat
  isConfirmed : Bool
  creatorAddress : Str
  description : Str
  totalAmount : ℚ
  currency : Str
  status : SplitStatus
  isCompleted : Bool
  isCancelled : Bool
  participants : List Participant
  createdAt : Nat
  completedAt : Option Nat
  cancelledAt : Option Nat
  expiresAt : Option Nat
deriving DecidableEq, Repr

/-- The splits collection. -/
abbrev SplitStore := List SplitDoc

/-- `Split.findBySplitId(splitId)`: `findOne({ splitId })`. -/
def findBySplitId (store : SplitStore) (splitId : Nat) : Option SplitDoc :=
  store.find? (fun s => s.splitId == splitId)

/-- `Split.findByTxHash(txHash)`: `findOne({ txHash: txHash.toLowerCase() })`. -/
def findByTxHash (store : SplitStore) (txHash : Str) : Option SplitDoc :=
  store.find? (fun s => s.txHash == jsToLower txHash)

/-- The descending creation-time ordering used by every split listing. -/
def createdGE (a b : SplitDoc) : Prop := b.createdAt ≤ a.createdAt

instance : DecidableRel createdGE := fun a b => Nat.decLe b.createdAt a.createdAt

instance : IsTotal SplitDoc createdGE :=
  ⟨fun a b => Or.symm (Nat.le_total a.createdAt b.createdAt)⟩

instance : IsTrans SplitDoc createdGE :=
  ⟨fun _ _ _ hab hbc => Nat.le_trans hbc hab⟩

/-- Sorting `{ createdAt: -1 }` (newest first), as a stable sort.  Both the
MongoDB sort and the (ES2019) stable `Array.prototype.sort` with comparator
`dateB - dateA` used in `getSplits` are stable sorts, and a stable sort of a
list under a total preorder is unique, so the stable `insertionSort` is the
faithful model of both. -/
def sortByCreatedDesc (l : List SplitDoc) : List SplitDoc :=
  l.insertionSort createdGE

/-- A `skip` stage.  The JS guards read `if (options?.skip)`, so a `0` value
is falsy and the stage is skipped. -/
def applySkip (skip : Option Nat) (l : List SplitDoc) : List SplitDoc :=
  match skip with
  | some n => if n = 0 then l else l.drop n
  | none => l

/-- A `limit` stage, with the same JS falsy-zero guard. -/
def applyLimit (limit : Option Nat) (l : List SplitDoc) : List SplitDoc :=
  match limit with
  | some n => if n = 0 then l else l.take n
  | none => l

/-- Query options `{ status?, limit?, skip? }`. -/
structure QueryOpts where
  status : Option SplitStatus
  limit : Option Nat
  skip : Option Nat
deriving DecidableEq, Repr

/-- The optional `status` filter added to a query object. -/
def statusFilter (st : Option SplitStatus) (s : SplitDoc) : Bool :=
  match st with
  | some t => s.status == t
  | none => true

/-- `Split.findByCreator(creatorAddress, options)`: filter by lower-cased
creator (plus optional status), sort newest first, then skip/limit
(MongoDB applies skip before limit). -/
def findByCreator (store : SplitStore) (creatorAddress : Str) (opts : QueryOpts) :
    List SplitDoc :=
  applyLimit opts.limit (applySkip opts.skip
    (sortByCreatedDesc (store.filter
      (fun s => s.creatorAddress == jsToLower creatorAddress && statusFilter opts.status s))))

/-- `Split.findByParticipant(walletAddress, options)`: filter on
`participants.walletAddress`, sort newest first, then skip/limit. -/
def findByParticipant (store : SplitStore) (walletAddress : Str) (opts : QueryOpts) :
    List SplitDoc :=
  applyLimit opts.limit (applySkip opts.skip
    (sortByCreatedDesc (store.filter
      (fun s => s.participants.any (fun p => p.walletAddress == jsToLower walletAddress) &&
        statusFilter opts.status s))))

/-- `Map.prototype.set` on a `Map<number, SplitDoc>` kept as an association
list in insertion order: overwriting keeps the original position, a new key
is appended. -/
def mapSet (m : List (Nat × SplitDoc)) (k : Nat) (v : SplitDoc) :
    List (Nat × SplitDoc) :=
  if m.any (fun e => e.1 == k) then
    m.map (fun e => if e.1 == k then (k, v) else e)
  else
    m ++ [(k, v)]

/-- The `splitMap` built in `getSplits`: every document of `l` is inserted
under its `splitId`, in order. -/
def buildIdMap (l : List SplitDoc) : List (Nat × SplitDoc) :=
  l.foldl (fun m s => mapSet m s.splitId s) []

/-- `Array.from(splitMap.values())`: deduplication by `splitId`, keeping the
first-insertion position and the last-inserted value. -/
def dedupBySplitId (l : List SplitDoc) : List SplitDoc :=
  (buildIdMap l).map (fun e => e.2)

/-- Error codes standing for the distinct `throw new Error(...)` messages of
the split service. -/
inductive SplitError
  | invalidCreatorAddress
  | noParticipants
  | tooManyParticipants
  | amountMismatch (total calcTotal : ℚ)
  | invalidParticipantAddress (addr : Str)
  | idAllocationExhausted
  | deployFailed
  | invalidWalletAddress
  | dbWriteFailed
deriving DecidableEq, Repr

/-- `SplitService.getSplits(walletAddress, options)` (real variant),
modelled up to the per-document enrichment: the enrichment step decorates
each returned split with `isCreator`/`creatorName`/`youPaid`/`paid` fields
but never adds, removes or reorders documents, so the returned split list is
the faithful projection.  Note the source passes `options` to BOTH
sub-queries and then applies `skip`/`limit` AGAIN after the merge. -/
def getSplits (store : SplitStore) (walletAddress : Str) (opts : QueryOpts) :
    Except SplitError (List SplitDoc) :=
  let normalizedAddress := jsToLower walletAddress
  if ¬ matchesAddrRegex normalizedAddress then .error .invalidWalletAddress
  else
    let createdSplits := findByCreator store normalizedAddress opts
    let participantSplits := findByParticipant store normalizedAddress opts
    let allSplits := sortByCreatedDesc (dedupBySplitId (createdSplits ++ participantSplits))
    .ok (applyLimit opts.limit (applySkip opts.skip allSplits))

/-- `SplitService.getSplitsByCreator(creatorAddress, options)`. -/
def getSplitsByCreator (store : SplitStore) (creatorAddress : Str) (opts : QueryOpts) :
    List SplitDoc :=
  findByCreator store (jsToLower creatorAddress) opts

/-- `SplitService.getSplitsByParticipant(walletAddress, options)`; the real
variant additionally enriches each document (again without changing which
documents appear or their order). -/
def getSplitsByParticipant (store : SplitStore) (walletAddress : Str) (opts : QueryOpts) :
    List SplitDoc :=
  findByParticipant store (jsToLower walletAddress) opts

/-- The starting candidate id of `createSplit`:
`maxSplit ? maxSplit.splitId + 1 : 1` where `maxSplit` is
`Split.findOne().sort({ splitId: -1 })`. -/
def allocStart (store : SplitStore) : Nat :=
  match (store.map (fun s => s.splitId)).max? with
  | some m => m + 1
  | none => 1

/-- The `while (existingSplit && attempts < 100)` probe loop of
`createSplit`, returning the final `(splitId, attempts)` pair. -/
def probeSplitId (store : SplitStore) (splitId attempts : Nat) : Nat × Nat :=
  if h : (findBySplitId store splitId).isSome ∧ attempts < 100 then
    probeSplitId store (splitId + 1) (attempts + 1)
  else
    (splitId, attempts)
termination_by 100 - attempts
decreasing_by omega

/-- The whole splitId allocation step of `createSplit` (lines 84-99):
start at max+1 (or 1), probe upward, and throw
`Unable to generate unique split ID` once `attempts >= 100`. -/
def allocateSplitId (store : SplitStore) : Except SplitError Nat :=
  let p := probeSplitId store (allocStart store) 0
  if p.2 ≥ 100 then .error .idAllocationExhausted else .ok p.1

/-- Result of `deploySplitContract` (the blockchain collaborator):
`{ splitId, splitAddress, txHash, blockNumber, isConfirmed }`.  The contract
splitId is a `bigint` in TS, where `0n` is falsy; here `0` plays that role. -/
structure ChainResult where
  splitId : Nat
  splitAddress : Str
  txHash : Str
  blockNumber : Nat
  isConfirmed : Bool
deriving DecidableEq, Repr

/-- One entry of `CreateSplitInput.participants`. -/
structure ParticipantInput where
  walletAddress : Str
  name : Option Str
  amountDue : ℚ
deriving DecidableEq, Repr

/-- `CreateSplitInput`. -/
structure CreateSplitInput where
  description : Str
  totalAmount : ℚ
  participants : List ParticipantInput
deriving DecidableEq, Repr

/-- Return value of the real `createSplit`. -/
structure CreateSplitResult where
  splitId : Nat
  contractAddress : Str
  txHash : Str
deriving DecidableEq, Repr

/-- `Math.abs` on exact rationals. -/
def jsAbs (x : ℚ) : ℚ := if x < 0 then -x else x

/-- `jsAbs` agrees with the mathematical absolute value. -/
theorem jsAbs_eq_abs (x : ℚ) : jsAbs x = |x| := by
  unfold jsAbs
  split
  · rw [abs_of_neg]
    assumption
  · rw [abs_of_nonneg (not_lt.mp (by assumption))]

/-- `splitData.participants.reduce((sum, p) => sum + p.amountDue, 0)`. -/
def participantsTotal (ps : List ParticipantInput) : ℚ :=
  ps.foldl (fun sum p => sum + p.amountDue) 0

/-- The stored participant built in `createSplit`: lower-cased address,
`hasPaid: false`, `reminderCount: 0`. -/
def toStoredParticipant (p : ParticipantInput) : Participant :=
  { walletAddress := jsToLower p.walletAddress
    name := p.name
    amountDue := p.amountDue
    hasPaid := false
    paidAt := none
    paymentTxHash := none
    reminderCount := 0
    lastRemindedAt := none }

/-- The document handed to `Split.create` by the real `createSplit`, after
the pre-save hooks (addresses already lower-cased; `expiresAt` defaulted to
creation time + 30 days, with time counted in days here). -/
def mkSplitDoc (finalSplitId : Nat) (bc : ChainResult) (normalizedCreator : Str)
    (splitData : CreateSplitInput) (now : Nat) : SplitDoc :=
  { splitId := finalSplitId
    contractAddress := jsToLower bc.splitAddress
    txHash := jsToLower bc.txHash
    blockNumber := bc.blockNumber
    isConfirmed := bc.isConfirmed
    creatorAddress := normalizedCreator
    description := splitData.description
    totalAmount := splitData.totalAmount
    currency := "USDC".data
    status := if bc.isConfirmed then .active else .pending
    isCompleted := false
    isCancelled := false
    participants := splitData.participants.map toStoredParticipant
    createdAt := now
    completedAt := none
    cancelledAt := none
    expiresAt := some (now + 30) }

/-- `SplitService.createSplit` — the REAL blockchain variant.

`deploy` is the outcome of the external `deploySplitContract` call
(`none` models that call throwing, which it wraps in its own distinct
message) and `dbOk` the outcome of `Split.create` (persistence).  The `try/catch` of the
source returns the blockchain data whenever `blockchainResult` is already
set when an error is thrown — which covers BOTH a failing `Split.create`
AND the duplicate-txHash throw of lines 118-122, because that throw happens
after the deployment.  The best-effort creator-stat update (swallowed on
failure) does not touch the split store and is omitted. -/
def createSplit (store : SplitStore) (creatorAddress : Str) (splitData : CreateSplitInput)
    (deploy : Option ChainResult) (dbOk : Bool) (now : Nat) :
    Except SplitError CreateSplitResult × SplitStore :=
  let normalizedCreator := jsToLower creatorAddress
  if ¬ matchesAddrRegex normalizedCreator then (.error .invalidCreatorAddress, store)
  else if splitData.participants.length = 0 then (.error .noParticipants, store)
  else if splitData.participants.length > 50 then (.error .tooManyParticipants, store)
  else
    let calculatedTotal := participantsTotal splitData.participants
    if jsAbs (calculatedTotal - splitData.totalAmount) > 1/100 then
      (.error (.amountMismatch splitData.totalAmount calculatedTotal), store)
    else
      match splitData.participants.find?
          (fun p => !(matchesAddrRegex (jsToLower p.walletAddress))) with
      | some p => (.error (.invalidParticipantAddress p.walletAddress), store)
      | none =>
        match allocateSplitId store with
        | .error e => (.error e, store)
        | .ok splitId =>
          match deploy with
          | none => (.error .deployFailed, store)
          | some bc =>
            let finalSplitId := if bc.splitId ≠ 0 then bc.splitId else splitId
            let catchResult : CreateSplitResult :=
              { splitId := finalSplitId
                contractAddress := bc.splitAddress
                txHash := bc.txHash }
            if (findByTxHash store bc.txHash).isSome then
              (.ok catchResult, store)
            else if ¬ dbOk then
              (.ok catchResult, store)
            else
              let doc := mkSplitDoc finalSplitId bc normalizedCreator splitData now
              (.ok { splitId := doc.splitId
                     contractAddress := doc.contractAddress
                     txHash := doc.txHash }, store ++ [doc])

/-- Return value of the mock `createSplit` (no `txHash` in the response). -/
structure CreateSplitMockResult where
  splitId : Nat
  contractAddress : Str
deriving DecidableEq, Repr

/-- The placeholder contract address of the mock variant. -/
def zeroContractAddress : Str :=
  "0x0000000000000000000000000000000000000000".data

/-- The document handed to `Split.create` by the mock `createSplit`. -/
def mkMockSplitDoc (splitId : Nat) (finalTxHash : Str) (mockBlockNumber : Nat)
    (normalizedCreator : Str) (splitData : CreateSplitInput) (now : Nat) : SplitDoc :=
  { splitId := splitId
    contractAddress := jsToLower zeroContractAddress
    txHash := jsToLower finalTxHash
    blockNumber := mockBlockNumber
    isConfirmed := false
    creatorAddress := normalizedCreator
    description := splitData.description
    totalAmount := splitData.totalAmount
    currency := "USDC".data
    status := .pending
    isCompleted := false
    isCancelled := false
    participants := splitData.participants.map toStoredParticipant
    createdAt := now
    completedAt := none
    cancelledAt := none
    expiresAt := some (now + 30) }

/-- `SplitService.createSplit` — the MOCK/placeholder variant.

The two randomly generated 64-hex-digit hashes are passed in as
`mockTxHash` (the first draw) and `regenTxHash` (the redraw used when the
first collides with an existing record); `mockBlockNumber` is the random
block number.  `mockIsConfirmed` is the literal `false`, so the stored
status is always `pending`.  This variant has no `blockchainResult`
fallback: a failing `Split.create` (`dbOk = false`) propagates as an
error. -/
def createSplitMock (store : SplitStore) (creatorAddress : Str)
    (splitData : CreateSplitInput) (mockTxHash regenTxHash : Str)
    (mockBlockNumber : Nat) (dbOk : Bool) (now : Nat) :
    Except SplitError CreateSplitMockResult × SplitStore :=
  let normalizedCreator := jsToLower creatorAddress
  if ¬ matchesAddrRegex normalizedCreator then (.error .invalidCreatorAddress, store)
  else if splitData.participants.length = 0 then (.error .noParticipants, store)
  else if splitData.participants.length > 50 then (.error .tooManyParticipants, store)
  else
    let calculatedTotal := participantsTotal splitData.participants
    if jsAbs (calculatedTotal - splitData.totalAmount) > 1/100 then
      (.error (.amountMismatch splitData.totalAmount calculatedTotal), store)
    else
      match splitData.participants.find?
          (fun p => !(matchesAddrRegex (jsToLower p.walletAddress))) with
      | some p => (.error (.invalidParticipantAddress p.walletAddress), store)
      | none =>
        match allocateSplitId store with
        | .error e => (.error e, store)
        | .ok splitId =>
          let finalTxHash :=
            if (findByTxHash store mockTxHash).isSome then regenTxHash else mockTxHash
          if ¬ dbOk then (.error .dbWriteFailed, store)
          else
            let doc := mkMockSplitDoc splitId finalTxHash mockBlockNumber
              normalizedCreator splitData now
            (.ok { splitId := doc.splitId, contractAddress := doc.contractAddress },
              store ++ [doc])

/-- `split.updateStatus(newStatus)` (split.model instance method): sets the
status and the two mirror flags, and stamps `completedAt`/`cancelledAt` on
first entry into the corresponding state. -/
def updateStatus (s : SplitDoc) (newStatus : SplitStatus) (now : Nat) : SplitDoc :=
  { s with
    status := newStatus
    isCompleted := newStatus == .completed
    isCancelled := newStatus == .cancelled
    completedAt :=
      if newStatus == .completed && s.completedAt.isNone then some now else s.completedAt
    cancelledAt :=
      if newStatus == .cancelled && s.cancelledAt.isNone then some now else s.cancelledAt }

/-- `split.checkAndUpdateCompletion()` (split.model instance method): if
every participant has paid, the list is non-empty, and the split is not
already completed, transition to `completed`; otherwise leave the document
unchanged. -/
def checkAndUpdateCompletion (s : SplitDoc) (now : Nat) : SplitDoc :=
  let allPaid := s.participants.all (fun p => p.hasPaid)
  if allPaid && decide (0 < s.participants.length) && !s.isCompleted then
    updateStatus s .completed now
  else
    s

/-- A user document (users.model `IUser`). -/
structure UserDoc where
  walletAddress : Str
  displayName : Str
  email : Option Str
  username : Option Str
  avatarUrl : Option Str
  totalSplitsCreated : Nat
  totalSplitsJoined : Nat
  totalAmountSplit : ℚ
  lastActiveAt : Nat
deriving DecidableEq, Repr

/-- The users collection. -/
abbrev UserStore := List UserDoc

/-- `usersModel.findByWallet(walletAddress)`:
`findOne({ walletAddress: walletAddress.toLowerCase() })`. -/
def findByWallet (store : UserStore) (walletAddress : Str) : Option UserDoc :=
  store.find? (fun u => u.walletAddress == jsToLower walletAddress)

/-- `user.updateActivity()`, applied in place in the store: refresh
`lastActiveAt` on the matching user. -/
def updateActivity (store : UserStore) (walletAddress : Str) (now : Nat) : UserStore :=
  store.map (fun u =>
    if u.walletAddress == jsToLower walletAddress then { u with lastActiveAt := now } else u)

/-- The fixed challenge string `MESSAGE_TO_SIGN` of `auth.service.ts`. -/
def messageToSign : Str :=
  ("Welcome to Splyt!\n\nSign this message to authenticate and access your account.\n\nThis signature proves you own this wallet and allows secure access to your Splyt account.\n\nPlatform: Splyt - Split Bills, Settle Instantly").data

/-- `AuthService.verifySignature(message, signature, expectedAddress)`:
recover the signer via `ethers.verifyMessage` (the `recover` oracle; `none`
models a throw, turned into `false`) and compare case-insensitively. -/
def verifySignatureWith (recover : Str → Str → Option Str)
    (message signature expectedAddress : Str) : Bool :=
  match recover message signature with
  | some recovered => jsToLower recovered == jsToLower expectedAddress
  | none => false

/-- Error codes for the distinct `throw new Error(...)` messages of
`verifyCredentials`. -/
inductive AuthError
  | missingInputs
  | invalidAddressFormat
  | invalidSignatureFormat
  | signatureMismatch
deriving DecidableEq, Repr

/-- The authenticated response `{ walletAddress, displayName, token }`; the
JWT is an external encoding of `{ walletAddress, displayName, userId }` and
is represented by the payload fields it carries. -/
structure AuthResult where
  walletAddress : Str
  displayName : Str
deriving DecidableEq, Repr

/-- `AuthService.verifyCredentials(walletAddress, signature)`.

`recover` stands for `ethers.verifyMessage`; `nameGen` stands for
`generateNameFromAddress` (a utility outside the service sources).  Returns
the response together with the updated user store. -/
def verifyCredentials (store : UserStore) (walletAddress signature : Str)
    (recover : Str → Str → Option Str) (nameGen : Str → Str) (now : Nat) :
    Except AuthError AuthResult × UserStore :=
  if walletAddress.length = 0 ∨ signature.length = 0 then (.error .missingInputs, store)
  else
    let normalizedAddress := jsToLower walletAddress
    if ¬ matchesAddrRegex normalizedAddress then (.error .invalidAddressFormat, store)
    else if ¬ matchesSigRegex signature then (.error .invalidSignatureFormat, store)
    else if ¬ verifySignatureWith recover messageToSign signature normalizedAddress then
      (.error .signatureMismatch, store)
    else
      match findByWallet store normalizedAddress with
      | some user =>
        (.ok { walletAddress := user.walletAddress, displayName := user.displayName },
          updateActivity store normalizedAddress now)
      | none =>
        let newUser : UserDoc :=
          { walletAddress := normalizedAddress
            displayName := nameGen normalizedAddress
            email := none
            username := none
            avatarUrl := none
            totalSplitsCreated := 0
            totalSplitsJoined := 0
            totalAmountSplit := 0
            lastActiveAt := now }
        (.ok { walletAddress := newUser.walletAddress, displayName := newUser.displayName },
          updateActivity (store ++ [newUser]) normalizedAddress now)

/-- `specGetSplitsClaim` — Modelled from the spec: the result `getSplits`
is CLAIMED to produce (spec §4.4/§8): the union of
`getSplitsByCreator(address)` and `getSplitsByParticipant(address)` — the
sub-queries run without pagination (the status filter, which the claim does
not relocate, is kept) — deduplicated by `splitId`, re-sorted by creation
time descending, with `skip` and `limit` applied only after the merge. -/
def specGetSplitsClaim (store : SplitStore) (walletAddress : Str) (opts : QueryOpts) :
    List SplitDoc :=
  let noPage : QueryOpts := ⟨opts.status, none, none⟩
  applyLimit opts.limit (applySkip opts.skip
    (sortByCreatedDesc (dedupBySplitId
      (getSplitsByCreator store walletAddress noPage ++
        getSplitsByParticipant store walletAddress noPage))))

/-- The numeric value of a valid codepoint round-trips through
`Char.ofNat`. -/
theorem charToNat_ofNat (n : Nat) (h : n.isValidChar) : (Char.ofNat n).toNat = n := by
  have h2 : n < UInt32.size := by
    have hs : UInt32.size = 4294967296 := rfl
    rcases h with h | ⟨_, h⟩ <;> omega

  simp [Char.ofNat, h, Char.ofNatAux, Char.toNat, UInt32.toNat, BitVec.toNat_ofNat,
    Nat.mod_eq_of_lt h2]

/-- `Char.toLower` never yields an ASCII upper-case letter. -/
theorem toLower_toNat_not_upper (c : Char) :
    ¬ (65 ≤ c.toLower.toNat ∧ c.toLower.toNat ≤ 90) := by
  unfold Char.toLower
  by_cases hc : c.toNat ≥ 65 ∧ c.toNat ≤ 90
  · rw [if_pos hc]
    have hv : (c.toNat + 32).isValidChar := by
      left
      omega
    rw [charToNat_ofNat _ hv]
    omega
  · rw [if_neg hc]
    omega

/-- A character outside the ASCII upper-case range is fixed by
`Char.toLower`. -/
theorem toLower_eq_self (c : Char) (h : ¬ (65 ≤ c.toNat ∧ c.toNat ≤ 90)) :
    c.toLower = c := by
  unfold Char.toLower
  rw [if_neg (by omega)]

/-- ASCII lower-casing is idempotent on characters. -/
theorem toLower_idem (c : Char) : c.toLower.toLower = c.toLower :=
  toLower_eq_self _ (toLower_toNat_not_upper c)

/-- `jsToLower` is idempotent on every string. -/
theorem jsToLower_idem (s : Str) : jsToLower (jsToLower s) = jsToLower s := by
  simp only [jsToLower, List.map_map]
  congr 1
  funext c
  simp only [Function.comp_apply]
  exact toLower_idem c

/-- A lower-cased character that is hex is lower-case hex. -/
theorem isHexChar_toLower (c : Char) (h : isHexChar c.toLower = true) :
    isLowerHexChar c.toLower = true := by
  have hn := toLower_toNat_not_upper c
  simp only [isHexChar, Bool.or_eq_true, Bool.and_eq_true, decide_eq_true_eq] at h
  simp only [isLowerHexChar, Bool.or_eq_true, Bool.and_eq_true, decide_eq_true_eq]
  omega

/-- C8: for every wallet address string `a` that passes the code's format
validation (the regex test applied to the lower-cased string), address
normalization is idempotent — `normalize (normalize a) = normalize a` — and
`normalize a` matches `/^0x[0-9a-f]{40}$/`. -/
theorem normalizeAddress_idem_and_lower (a : Str)
    (h : matchesAddrRegex (normalizeAddress a) = true) :
    normalizeAddress (normalizeAddress a) = normalizeAddress a ∧
    matchesLowerAddrRegex (normalizeAddress a) = true := by
  refine ⟨jsToLower_idem a, ?_⟩
  unfold normalizeAddress at *
  have hmem : ∀ x ∈ jsToLower a, isHexChar x = true → isLowerHexChar x = true := by
    intro x hx hhex
    rcases List.mem_map.mp hx with ⟨y, _, rfl⟩
    exact isHexChar_toLower y hhex
  rcases hsa : jsToLower a with _ | ⟨c0, tail⟩
  · rw [hsa] at h
    simp [matchesAddrRegex] at h
  · rcases tail with _ | ⟨c1, rest⟩
    · rw [hsa] at h
      simp [matchesAddrRegex] at h
    · rw [hsa] at h hmem
      simp only [matchesAddrRegex, Bool.and_eq_true, beq_iff_eq] at h
      simp only [matchesLowerAddrRegex, Bool.and_eq_true, beq_iff_eq]
      obtain ⟨⟨⟨h0, h1⟩, hlen⟩, hall⟩ := h
      refine ⟨⟨⟨h0, h1⟩, hlen⟩, ?_⟩
      simp only [List.all_eq_true] at hall ⊢
      intro x hx
      exact hmem x (List.mem_cons_of_mem _ (List.mem_cons_of_mem _ hx)) (hall x hx)

/-- A mixed-case sample address (a concrete format-valid input). -/
def sampleAddrMixed : Str := "0xAbCdEf0123456789aBcDeF0123456789AbCdEf01".data

/-- C8 witness: the theorem applied to a concrete mixed-case address. -/
theorem normalizeAddress_idem_and_lower_witness :
    matchesAddrRegex (normalizeAddress sampleAddrMixed) = true ∧
    (normalizeAddress (normalizeAddress sampleAddrMixed) = normalizeAddress sampleAddrMixed ∧
      matchesLowerAddrRegex (normalizeAddress sampleAddrMixed) = true) :=
  ⟨by decide, normalizeAddress_idem_and_lower sampleAddrMixed (by decide)⟩

/-- C6: for every split with at least one participant whose participants
have all paid, `checkAndUpdateCompletion` yields `status = completed` and
`isCompleted = true`, and running it again on the result changes nothing.
The hypothesis `hinv` is the flag/status consistency every stored split
satisfies (the flag is only ever set by `updateStatus`). -/
theorem checkAndUpdateCompletion_completes_and_idem (s : SplitDoc) (now now2 : Nat)
    (hne : s.participants ≠ [])
    (hall : s.participants.all (fun p => p.hasPaid) = true)
    (hinv : s.isCompleted = true → s.status = SplitStatus.completed) :
    (checkAndUpdateCompletion s now).status = SplitStatus.completed ∧
    (checkAndUpdateCompletion s now).isCompleted = true ∧
    checkAndUpdateCompletion (checkAndUpdateCompletion s now) now2 =
      checkAndUpdateCompletion s now := by
  have hlen : 0 < s.participants.length := List.length_pos.mpr hne
  cases hc : s.isCompleted with
  | true =>
    have hstat := hinv hc
    unfold checkAndUpdateCompletion
    simp [hall, hlen, hc, hstat]
  | false =>
    unfold checkAndUpdateCompletion
    simp [hall, hlen, hc, updateStatus]

/-- A concrete split whose single participant has paid. -/
def sampleSplitAllPaid : SplitDoc :=
  { splitId := 1
    contractAddress := zeroContractAddress
    txHash := '0' :: 'x' :: List.replicate 64 '1'
    blockNumber := 100
    isConfirmed := true
    creatorAddress := '0' :: 'x' :: List.replicate 40 'a'
    description := "Dinner".data
    totalAmount := 10
    currency := "USDC".data
    status := SplitStatus.active
    isCompleted := false
    isCancelled := false
    participants := [{ walletAddress := '0' :: 'x' :: List.replicate 40 'b'
                       name := none
                       amountDue := 10
                       hasPaid := true
                       paidAt := some 3
                       paymentTxHash := none
                       reminderCount := 0
                       lastRemindedAt := none }]
    createdAt := 1
    completedAt := none
    cancelledAt := none
    expiresAt := some 31 }

/-- C6 witness: the theorem applied to `sampleSplitAllPaid`. -/
theorem checkAndUpdateCompletion_completes_and_idem_witness :
    sampleSplitAllPaid.participants ≠ [] ∧
    sampleSplitAllPaid.participants.all (fun p => p.hasPaid) = true ∧
    ((checkAndUpdateCompletion sampleSplitAllPaid 5).status = SplitStatus.completed ∧
      (checkAndUpdateCompletion sampleSplitAllPaid 5).isCompleted = true ∧
      checkAndUpdateCompletion (checkAndUpdateCompletion sampleSplitAllPaid 5) 6 =
        checkAndUpdateCompletion sampleSplitAllPaid 5) :=
  ⟨by decide, by decide,
    checkAndUpdateCompletion_completes_and_idem sampleSplitAllPaid 5 6
      (by decide) (by decide) (by decide)⟩

/-- C7: whenever the signature does not cryptographically match the wallet
address (the recovery oracle yields a non-matching signer, or throws), and
the request reaches the cryptographic check, `verifyCredentials` rejects
with the signature-mismatch error and leaves the user store unchanged — in
particular no `User` record is created.  Non-emptiness of the inputs is
forced by the format hypotheses. -/
theorem verifyCredentials_rejects_bad_signature (store : UserStore)
    (walletAddress signature : Str) (recover : Str → Str → Option Str)
    (nameGen : Str → Str) (now : Nat)
    (haddr : matchesAddrRegex (jsToLower walletAddress) = true)
    (hsig : matchesSigRegex signature = true)
    (hbad : verifySignatureWith recover messageToSign signature
      (jsToLower walletAddress) = false) :
    verifyCredentials store walletAddress signature recover nameGen now =
      (.error .signatureMismatch, store) := by
  have hw : walletAddress.length ≠ 0 := by
    intro h0
    rw [List.length_eq_zero] at h0
    subst h0
    simp [jsToLower, matchesAddrRegex] at haddr
  have hs : signature.length ≠ 0 := by
    intro h0
    rw [List.length_eq_zero] at h0
    subst h0
    simp [matchesSigRegex] at hsig
  simp [verifyCredentials, hw, hs, haddr, hsig, hbad]

/-- A concrete lower-case wallet address. -/
def sampleLowerAddr : Str := '0' :: 'x' :: List.replicate 40 'a'

/-- A concrete well-formed (but cryptographically meaningless) signature. -/
def sampleSignature : Str := '0' :: 'x' :: List.replicate 130 '1'

set_option maxRecDepth 4000 in
/-- C7 witness: a throwing recovery oracle on an empty user store. -/
theorem verifyCredentials_rejects_bad_signature_witness :
    matchesAddrRegex (jsToLower sampleLowerAddr) = true ∧
    matchesSigRegex sampleSignature = true ∧
    verifySignatureWith (fun _ _ => none) messageToSign sampleSignature
      (jsToLower sampleLowerAddr) = false ∧
    verifyCredentials [] sampleLowerAddr sampleSignature (fun _ _ => none)
      (fun _ => []) 0 = (.error .signatureMismatch, []) :=
  ⟨by decide, by decide, rfl,
    verifyCredentials_rejects_bad_signature [] sampleLowerAddr sampleSignature
      (fun _ _ => none) (fun _ => []) 0 (by decide) (by decide) rfl⟩

/-- Whether a candidate splitId is unused in the store. -/
def isFreeSplitId (store : SplitStore) (splitId : Nat) : Bool :=
  (findBySplitId store splitId).isNone

/-- An occupied candidate makes the loop guard's first conjunct true. -/
theorem isSome_of_not_free (store : SplitStore) (i : Nat)
    (h : isFreeSplitId store i = false) : (findBySplitId store i).isSome = true := by
  unfold isFreeSplitId at h
  cases hf : findBySplitId store i <;> rw [hf] at h <;> simp_all

/-- The probe loop stops when its guard fails. -/
theorem probeSplitId_stop (store : SplitStore) (splitId attempts : Nat)
    (h : ¬ ((findBySplitId store splitId).isSome ∧ attempts < 100)) :
    probeSplitId store splitId attempts = (splitId, attempts) := by
  rw [probeSplitId, dif_neg h]

/-- The probe loop advances when its guard holds. -/
theorem probeSplitId_step (store : SplitStore) (splitId attempts : Nat)
    (h : (findBySplitId store splitId).isSome ∧ attempts < 100) :
    probeSplitId store splitId attempts = probeSplitId store (splitId + 1) (attempts + 1) := by
  conv_lhs => rw [probeSplitId]
  rw [dif_pos h]

/-- Running the probe loop over `k` occupied candidates: it ends at
candidate `splitId + k` with `attempts + k` attempts, provided that
candidate is free or the attempt bound is reached there. -/
theorem probeSplitId_run (store : SplitStore) :
    ∀ (k splitId attempts : Nat), attempts + k ≤ 100 →
      (∀ j, j < k → isFreeSplitId store (splitId + j) = false) →
      (isFreeSplitId store (splitId + k) = true ∨ attempts + k = 100) →
      probeSplitId store splitId attempts = (splitId + k, attempts + k) := by
  intro k
  induction k with
  | zero =>
    intro splitId attempts _ _ hstop
    rcases hstop with hfree | h100
    · apply probeSplitId_stop
      rintro ⟨hsome, -⟩
      unfold isFreeSplitId at hfree
      simp_all
    · apply probeSplitId_stop
      rintro ⟨-, hlt⟩
      omega
  | succ k ih =>
    intro splitId attempts hle hocc hstop
    have h0 : isFreeSplitId store (splitId + 0) = false := hocc 0 (by omega)
    rw [probeSplitId_step store splitId attempts
      ⟨isSome_of_not_free store _ (by simpa using h0), by omega⟩]
    have hocc1 : ∀ j, j < k → isFreeSplitId store (splitId + 1 + j) = false := by
      intro j hj
      have h := hocc (j + 1) (by omega)
      rwa [show splitId + (j + 1) = splitId + 1 + j by omega] at h
    have hstop1 : isFreeSplitId store (splitId + 1 + k) = true ∨ attempts + 1 + k = 100 := by
      rcases hstop with hfree | h100
      · left
        rwa [show splitId + (k + 1) = splitId + 1 + k by omega] at hfree
      · right
        omega
    rw [ih (splitId + 1) (attempts + 1) (by omega) hocc1 hstop1]
    simp only [Prod.mk.injEq]
    omega

/-- C3: splitId allocation starts at the maximum existing id plus one (or 1
on an empty store), probes upward one id at a time over occupied
candidates, returns the first free candidate when it is found strictly
within the 100-attempt bound, and fails with the allocation error once 100
attempts have been used. -/
theorem allocateSplitId_spec (store : SplitStore) :
    (store = [] → allocStart store = 1) ∧
    (∀ s ∈ store, s.splitId + 1 ≤ allocStart store) ∧
    (store ≠ [] → ∃ s ∈ store, allocStart store = s.splitId + 1) ∧
    (∀ k, k < 100 → isFreeSplitId store (allocStart store + k) = true →
      (∀ j, j < k → isFreeSplitId store (allocStart store + j) = false) →
      allocateSplitId store = .ok (allocStart store + k)) ∧
    ((∀ j, j < 100 → isFreeSplitId store (allocStart store + j) = false) →
      allocateSplitId store = .error .idAllocationExhausted) := by
  refine ⟨?_, ?_, ?_, ?_, ?_⟩
  · intro h
    subst h
    rfl
  · intro s hs
    cases hm : (store.map (fun s => s.splitId)).max? with
    | none =>
      rw [List.max?_eq_none_iff] at hm
      rw [List.map_eq_nil_iff] at hm
      subst hm
      simp at hs
    | some m =>
      have hmax := (List.max?_eq_some_iff (fun a => Nat.le_refl a)
        (fun a b => max_choice a b) (fun a b c => Nat.max_le)).mp hm
      have hb := hmax.2 s.splitId (List.mem_map_of_mem _ hs)
      have hstart : allocStart store = m + 1 := by
        unfold allocStart
        rw [hm]
      omega
  · intro hne
    cases hm : (store.map (fun s => s.splitId)).max? with
    | none =>
      rw [List.max?_eq_none_iff] at hm
      rw [List.map_eq_nil_iff] at hm
      exact absurd hm hne
    | some m =>
      have hmax := (List.max?_eq_some_iff (fun a => Nat.le_refl a)
        (fun a b => max_choice a b) (fun a b c => Nat.max_le)).mp hm
      have hstart : allocStart store = m + 1 := by
        unfold allocStart
        rw [hm]
      rcases List.mem_map.mp hmax.1 with ⟨s, hs, hsm⟩
      exact ⟨s, hs, by omega⟩
  · intro k hk hfree hocc
    unfold allocateSplitId
    rw [probeSplitId_run store k (allocStart store) 0 (by omega) hocc (Or.inl hfree)]
    simp only [Nat.zero_add]
    rw [if_neg (by omega)]
  · intro hocc
    unfold allocateSplitId
    rw [probeSplitId_run store 100 (allocStart store) 0 (by omega) hocc (Or.inr (by omega))]
    simp only [Nat.zero_add]
    rw [if_pos (by omega)]

/-- C3 witness: on a one-element store holding splitId 1, allocation starts
at 2, which is free, and the allocator returns it. -/
theorem allocateSplitId_spec_witness :
    isFreeSplitId [sampleSplitAllPaid] (allocStart [sampleSplitAllPaid] + 0) = true ∧
    allocateSplitId [sampleSplitAllPaid] = .ok (allocStart [sampleSplitAllPaid] + 0) :=
  ⟨by decide,
    (allocateSplitId_spec [sampleSplitAllPaid]).2.2.2.1 0 (by decide) (by decide)
      (fun j hj => absurd hj (Nat.not_lt_zero j))⟩

/-- Allocation only ever fails with the exhaustion error. -/
theorem allocateSplitId_error_eq (store : SplitStore) (e : SplitError)
    (h : allocateSplitId store = .error e) : e = SplitError.idAllocationExhausted := by
  unfold allocateSplitId at h
  have h2 : (if (probeSplitId store (allocStart store) 0).2 ≥ 100
      then (Except.error SplitError.idAllocationExhausted : Except SplitError Nat)
      else .ok (probeSplitId store (allocStart store) 0).1) = .error e := h
  split at h2
  · injection h2 with h2
    exact h2.symm
  · cases h2

/-- C5: once the earlier validations pass (creator address format,
participant count), the amount check accepts exactly the inputs whose
participant sum is within 0.01 of `totalAmount`: a deviation strictly above
0.01 rejects with the mismatch error and leaves the store untouched, and a
deviation of at most 0.01 can never produce the mismatch error, whatever
the later steps do. -/
theorem createSplit_amount_tolerance (store : SplitStore) (creator : Str)
    (data : CreateSplitInput) (deploy : Option ChainResult) (dbOk : Bool) (now : Nat)
    (hc : matchesAddrRegex (jsToLower creator) = true)
    (hn : data.participants.length ≠ 0)
    (hm : data.participants.length ≤ 50) :
    (jsAbs (participantsTotal data.participants - data.totalAmount) > 1/100 →
      createSplit store creator data deploy dbOk now =
        (.error (.amountMismatch data.totalAmount (participantsTotal data.participants)),
          store)) ∧
    (jsAbs (participantsTotal data.participants - data.totalAmount) ≤ 1/100 →
      ∀ t c, (createSplit store creator data deploy dbOk now).1 ≠
        .error (.amountMismatch t c)) := by
  constructor
  · intro hgt
    unfold createSplit
    rw [if_neg (by simp [hc]), if_neg hn, if_neg (by omega), if_pos hgt]
  · intro hle t c
    unfold createSplit
    rw [if_neg (by simp [hc]), if_neg hn, if_neg (by omega),
      if_neg (not_lt.mpr hle)]
    cases hfind : data.participants.find?
        (fun p => !(matchesAddrRegex (jsToLower p.walletAddress))) with
    | some p => simp
    | none =>
      cases halloc : allocateSplitId store with
      | error e =>
        have he := allocateSplitId_error_eq store e halloc
        subst he
        simp
      | ok splitId =>
        cases deploy with
        | none => simp
        | some bc =>
          by_cases hdup : (findByTxHash store bc.txHash).isSome
          · simp [hdup]
          · by_cases hdb : dbOk
            · simp [hdup, hdb]
            · simp [hdup, hdb]

/-- A second and third lower-case sample address. -/
def sampleAddrB : Str := '0' :: 'x' :: List.replicate 40 'b'

/-- A third lower-case sample address. -/
def sampleAddrC : Str := '0' :: 'x' :: List.replicate 40 'c'

/-- A creation input whose participant amounts (60 + 40 = 100) miss the
declared total of 101 by a full unit. -/
def c5data : CreateSplitInput :=
  { description := "Dinner".data
    totalAmount := 101
    participants :=
      [{ walletAddress := sampleAddrB, name := none, amountDue := 60 },
        { walletAddress := sampleAddrC, name := none, amountDue := 40 }] }

/-- C5 witness: the mismatching input is rejected with the mismatch error
on an empty store, which is left unchanged. -/
theorem createSplit_amount_tolerance_witness :
    matchesAddrRegex (jsToLower sampleLowerAddr) = true ∧
    c5data.participants.length ≠ 0 ∧
    c5data.participants.length ≤ 50 ∧
    jsAbs (participantsTotal c5data.participants - c5data.totalAmount) > 1/100 ∧
    createSplit [] sampleLowerAddr c5data none true 0 =
      (.error (.amountMismatch c5data.totalAmount (participantsTotal c5data.participants)),
        []) :=
  ⟨by decide, by decide, by decide,
    by
      simp only [c5data, participantsTotal, List.foldl_cons, List.foldl_nil, jsAbs]
      norm_num,
    (createSplit_amount_tolerance [] sampleLowerAddr c5data none true 0
      (by decide) (by decide) (by decide)).1
      (by
        simp only [c5data, participantsTotal, List.foldl_cons, List.foldl_nil, jsAbs]
        norm_num)⟩

/-- When the starting candidate is already free the allocator returns it at
once (helper for concrete instances, since the probe loop is defined by
well-founded recursion). -/
theorem allocateSplitId_of_free_start (store : SplitStore)
    (h : isFreeSplitId store (allocStart store) = true) :
    allocateSplitId store = .ok (allocStart store) := by
  unfold allocateSplitId
  rw [probeSplitId_stop store _ 0]
  · rfl
  · rintro ⟨hsome, -⟩
    unfold isFreeSplitId at h
    simp_all

/-- If every participant address is format-valid, the validation scan finds
no offender. -/
theorem find?_invalid_eq_none (ps : List ParticipantInput)
    (hp : ps.all (fun p => matchesAddrRegex (jsToLower p.walletAddress)) = true) :
    ps.find? (fun p => !(matchesAddrRegex (jsToLower p.walletAddress))) = none := by
  rw [List.find?_eq_none]
  intro p hpmem
  have h := List.all_eq_true.mp hp p hpmem
  simp [h]

/-- C2 (amended): when the blockchain deployment succeeds but persistence
fails, `createSplit` does not propagate the error and the store is left
unchanged: it returns the contract address and transaction hash of the
blockchain result, and the splitId of the blockchain result when that
on-chain id is nonzero — falling back to the locally allocated splitId when
the on-chain bigint is `0` (falsy in the JS check
`blockchainResult.splitId ? Number(...) : splitId`). -/
theorem createSplit_db_failure_returns_chain_data (store : SplitStore) (creator : Str)
    (data : CreateSplitInput) (bc : ChainResult) (now : Nat) (allocId : Nat)
    (hc : matchesAddrRegex (jsToLower creator) = true)
    (hn : data.participants.length ≠ 0)
    (hm : data.participants.length ≤ 50)
    (hamt : jsAbs (participantsTotal data.participants - data.totalAmount) ≤ 1/100)
    (hp : data.participants.all (fun p => matchesAddrRegex (jsToLower p.walletAddress)) = true)
    (halloc : allocateSplitId store = .ok allocId)
    (hdup : (findByTxHash store bc.txHash).isSome = false) :
    createSplit store creator data (some bc) false now =
      (.ok { splitId := if bc.splitId ≠ 0 then bc.splitId else allocId,
             contractAddress := bc.splitAddress,
             txHash := bc.txHash }, store) := by
  unfold createSplit
  rw [if_neg (by simp [hc]), if_neg hn, if_neg (by omega), if_neg (not_lt.mpr hamt),
    find?_invalid_eq_none data.participants hp, halloc]
  simp [hdup]

/-- A creation input whose participant amounts match the declared total. -/
def c2data : CreateSplitInput :=
  { description := "Dinner".data
    totalAmount := 100
    participants :=
      [{ walletAddress := sampleAddrB, name := none, amountDue := 60 },
        { walletAddress := sampleAddrC, name := none, amountDue := 40 }] }

/-- A successful deployment result with a nonzero on-chain splitId. -/
def c2chain : ChainResult :=
  { splitId := 7
    splitAddress := sampleAddrB
    txHash := '0' :: 'x' :: List.replicate 64 '2'
    blockNumber := 5
    isConfirmed := true }

/-- A successful deployment result whose on-chain splitId is the falsy 0. -/
def c2chainZero : ChainResult :=
  { splitId := 0
    splitAddress := sampleAddrB
    txHash := '0' :: 'x' :: List.replicate 64 '7'
    blockNumber := 5
    isConfirmed := true }

/-- C2 counterexample: a deployment succeeding with on-chain id `0` and a
failing persistence — the error is still not propagated and nothing is
persisted, but the returned splitId is the locally allocated `1`, NOT the
splitId of the blockchain result (which is `0`): the `0n` bigint is falsy
in `blockchainResult.splitId ? Number(...) : splitId`. -/
theorem createSplit_db_failure_zero_id_counterexample :
    createSplit [] sampleLowerAddr c2data (some c2chainZero) false 0 =
      (.ok { splitId := 1, contractAddress := c2chainZero.splitAddress,
             txHash := c2chainZero.txHash }, []) ∧
    c2chainZero.splitId ≠ 1 := by
  refine ⟨?_, by decide⟩
  unfold createSplit
  rw [if_neg (by decide), if_neg (by decide), if_neg (by decide)]
  rw [if_neg (show ¬ jsAbs (participantsTotal c2data.participants - c2data.totalAmount) >
      1/100 by
        simp only [c2data, participantsTotal, List.foldl_cons, List.foldl_nil, jsAbs]
        norm_num)]
  rw [show c2data.participants.find?
      (fun p => !(matchesAddrRegex (jsToLower p.walletAddress))) = none from by decide]
  rw [show allocateSplitId [] = .ok 1 from by
    simpa using allocateSplitId_of_free_start [] (by decide)]
  simp [show (findByTxHash [] c2chainZero.txHash).isSome = false from by decide, c2chainZero]

/-- C2 witness: the amended theorem at two concrete deployments on an empty
store with failing persistence — a nonzero on-chain id is returned as is,
the zero on-chain id falls back to the locally allocated 1; nothing is
persisted in either case. -/
theorem createSplit_db_failure_returns_chain_data_witness :
    allocateSplitId [] = .ok 1 ∧
    jsAbs (participantsTotal c2data.participants - c2data.totalAmount) ≤ 1/100 ∧
    createSplit [] sampleLowerAddr c2data (some c2chain) false 0 =
      (.ok { splitId := if c2chain.splitId ≠ 0 then c2chain.splitId else 1,
             contractAddress := c2chain.splitAddress,
             txHash := c2chain.txHash }, []) ∧
    createSplit [] sampleLowerAddr c2data (some c2chainZero) false 0 =
      (.ok { splitId := if c2chainZero.splitId ≠ 0 then c2chainZero.splitId else 1,
             contractAddress := c2chainZero.splitAddress,
             txHash := c2chainZero.txHash }, []) :=
  ⟨by simpa using allocateSplitId_of_free_start [] (by decide),
    by
      simp only [c2data, participantsTotal, List.foldl_cons, List.foldl_nil, jsAbs]
      norm_num,
    createSplit_db_failure_returns_chain_data [] sampleLowerAddr c2data c2chain 0 1
      (by decide) (by decide) (by decide)
      (by
        simp only [c2data, participantsTotal, List.foldl_cons, List.foldl_nil, jsAbs]
        norm_num)
      (by decide)
      (by simpa using allocateSplitId_of_free_start [] (by decide))
      (by decide),
    createSplit_db_failure_returns_chain_data [] sampleLowerAddr c2data c2chainZero 0 1
      (by decide) (by decide) (by decide)
      (by
        simp only [c2data, participantsTotal, List.foldl_cons, List.foldl_nil, jsAbs]
        norm_num)
      (by decide)
      (by simpa using allocateSplitId_of_free_start [] (by decide))
      (by decide)⟩

/-- A transaction hash already present in the store below. -/
def c1txHash : Str := '0' :: 'x' :: List.replicate 64 '3'

/-- The redrawn mock hash. -/
def c1regenHash : Str := '0' :: 'x' :: List.replicate 64 '4'

/-- A stored split carrying `c1txHash`. -/
def c1doc : SplitDoc :=
  { splitId := 1
    contractAddress := zeroContractAddress
    txHash := c1txHash
    blockNumber := 1
    isConfirmed := false
    creatorAddress := sampleAddrB
    description := "Lunch".data
    totalAmount := 100
    currency := "USDC".data
    status := SplitStatus.pending
    isCompleted := false
    isCancelled := false
    participants := [{ walletAddress := sampleAddrC
                       name := none
                       amountDue := 100
                       hasPaid := false
                       paidAt := none
                       paymentTxHash := none
                       reminderCount := 0
                       lastRemindedAt := none }]
    createdAt := 1
    completedAt := none
    cancelledAt := none
    expiresAt := some 31 }

/-- A one-split store already holding `c1txHash`. -/
def c1store : SplitStore := [c1doc]

/-- A deployment result whose transaction hash collides with the store. -/
def c1chain : ChainResult :=
  { splitId := 9
    splitAddress := sampleAddrC
    txHash := c1txHash
    blockNumber := 5
    isConfirmed := true }

/-- C1 counterexample: with a colliding transaction hash on the real
blockchain path, `createSplit` does NOT fail with a conflict error — the
duplicate-hash throw is captured by the partial-failure catch (the
blockchain result is already set), so the call returns the blockchain
identifiers as a success; the store is left unchanged (no duplicate). -/
theorem createSplit_txHash_conflict_counterexample :
    createSplit c1store sampleLowerAddr c2data (some c1chain) true 0 =
      (.ok { splitId := 9, contractAddress := sampleAddrC, txHash := c1txHash }, c1store) := by
  unfold createSplit
  rw [if_neg (by decide), if_neg (by decide), if_neg (by decide)]
  rw [if_neg (show ¬ jsAbs (participantsTotal c2data.participants - c2data.totalAmount) >
      1/100 by
        simp only [c2data, participantsTotal, List.foldl_cons, List.foldl_nil, jsAbs]
        norm_num)]
  rw [show c2data.participants.find?
      (fun p => !(matchesAddrRegex (jsToLower p.walletAddress))) = none from by decide]
  rw [show allocateSplitId c1store = .ok 2 from by
    simpa using allocateSplitId_of_free_start c1store (by decide)]
  simp [show (findByTxHash c1store c1chain.txHash).isSome = true from by decide, c1chain]
  decide

/-- C1 (amended): if the transaction hash obtained from the blockchain
collaborator already exists in the store, the real path persists no
duplicate — the store is unchanged — but the conflict is NOT propagated:
the duplicate-hash throw is swallowed by the partial-failure catch (the
blockchain result is already set) and the call returns the blockchain
identifiers as a success.  Only the placeholder (mock) path regenerates the
hash, persisting a single record under the redrawn hash. -/
theorem createSplit_txHash_conflict_behavior (store : SplitStore) (creator : Str)
    (data : CreateSplitInput) (bc : ChainResult) (dbOk : Bool) (now : Nat) (allocId : Nat)
    (hc : matchesAddrRegex (jsToLower creator) = true)
    (hn : data.participants.length ≠ 0)
    (hm : data.participants.length ≤ 50)
    (hamt : jsAbs (participantsTotal data.participants - data.totalAmount) ≤ 1/100)
    (hp : data.participants.all (fun p => matchesAddrRegex (jsToLower p.walletAddress)) = true)
    (halloc : allocateSplitId store = .ok allocId)
    (hdup : (findByTxHash store bc.txHash).isSome = true) :
    createSplit store creator data (some bc) dbOk now =
      (.ok { splitId := if bc.splitId ≠ 0 then bc.splitId else allocId,
             contractAddress := bc.splitAddress, txHash := bc.txHash }, store) ∧
    (∀ (hash1 hash2 : Str) (bn : Nat),
      (findByTxHash store hash1).isSome = true →
      createSplitMock store creator data hash1 hash2 bn true now =
        (.ok { splitId := allocId, contractAddress := jsToLower zeroContractAddress },
          store ++ [mkMockSplitDoc allocId hash2 bn (jsToLower creator) data now])) := by
  constructor
  · unfold createSplit
    rw [if_neg (by simp [hc]), if_neg hn, if_neg (by omega), if_neg (not_lt.mpr hamt),
      find?_invalid_eq_none data.participants hp, halloc]
    simp [hdup]
  · intro hash1 hash2 bn hdup1
    unfold createSplitMock
    rw [if_neg (by simp [hc]), if_neg hn, if_neg (by omega), if_neg (not_lt.mpr hamt),
      find?_invalid_eq_none data.participants hp, halloc]
    simp [hdup1, mkMockSplitDoc]

/-- C1 witness: the amended behavior at the concrete colliding instance:
the real path returns the blockchain identifiers with the store unchanged,
the mock path persists one record under the regenerated hash. -/
theorem createSplit_txHash_conflict_behavior_witness :
    (findByTxHash c1store c1chain.txHash).isSome = true ∧
    createSplit c1store sampleLowerAddr c2data (some c1chain) true 0 =
      (.ok { splitId := if c1chain.splitId ≠ 0 then c1chain.splitId else 2,
             contractAddress := c1chain.splitAddress, txHash := c1chain.txHash }, c1store) ∧
    createSplitMock c1store sampleLowerAddr c2data c1txHash c1regenHash 6 true 0 =
      (.ok { splitId := 2, contractAddress := jsToLower zeroContractAddress },
        c1store ++ [mkMockSplitDoc 2 c1regenHash 6 (jsToLower sampleLowerAddr) c2data 0]) := by
  have h := createSplit_txHash_conflict_behavior c1store sampleLowerAddr c2data c1chain
    true 0 2 (by decide) (by decide) (by decide)
    (by
      simp only [c2data, participantsTotal, List.foldl_cons, List.foldl_nil, jsAbs]
      norm_num)
    (by decide)
    (by simpa using allocateSplitId_of_free_start c1store (by decide))
    (by decide)
  exact ⟨by decide, h.1, h.2 c1txHash c1regenHash 6 (by decide)⟩

deriving instance DecidableEq for Except

/-- A split created by the sample requester (newest). -/
def c4docA : SplitDoc :=
  { splitId := 1
    contractAddress := zeroContractAddress
    txHash := '0' :: 'x' :: List.replicate 64 '5'
    blockNumber := 1
    isConfirmed := true
    creatorAddress := sampleLowerAddr
    description := "Trip".data
    totalAmount := 50
    currency := "USDC".data
    status := SplitStatus.active
    isCompleted := false
    isCancelled := false
    participants := [{ walletAddress := sampleAddrB
                       name := none
                       amountDue := 50
                       hasPaid := false
                       paidAt := none
                       paymentTxHash := none
                       reminderCount := 0
                       lastRemindedAt := none }]
    createdAt := 2
    completedAt := none
    cancelledAt := none
    expiresAt := some 32 }

/-- An older split in which the sample requester participates. -/
def c4docB : SplitDoc :=
  { splitId := 2
    contractAddress := zeroContractAddress
    txHash := '0' :: 'x' :: List.replicate 64 '6'
    blockNumber := 2
    isConfirmed := true
    creatorAddress := sampleAddrB
    description := "Rent".data
    totalAmount := 80
    currency := "USDC".data
    status := SplitStatus.active
    isCompleted := false
    isCancelled := false
    participants := [{ walletAddress := sampleLowerAddr
                       name := none
                       amountDue := 80
                       hasPaid := false
                       paidAt := none
                       paymentTxHash := none
                       reminderCount := 0
                       lastRemindedAt := none }]
    createdAt := 1
    completedAt := none
    cancelledAt := none
    expiresAt := some 31 }

/-- A two-split store: one created by, one participated in by, the sample
requester. -/
def c4store : SplitStore := [c4docA, c4docB]

/-- A query asking to skip the first result. -/
def c4opts : QueryOpts := { status := none, limit := none, skip := some 1 }

/-- C4 counterexample: with `skip = 1`, the code returns the empty list —
the skip was already applied inside each sub-query and is then applied
again after the merge — while the claimed description (pagination only
after the merge of the unpaginated sub-queries) yields the older split. -/
theorem getSplits_pagination_counterexample :
    getSplits c4store sampleLowerAddr c4opts = .ok [] ∧
    specGetSplitsClaim c4store sampleLowerAddr c4opts = [c4docB] ∧
    getSplits c4store sampleLowerAddr c4opts ≠
      .ok (specGetSplitsClaim c4store sampleLowerAddr c4opts) := by
  refine ⟨?_, ?_, ?_⟩ <;> decide

/-- Any entry of `mapSet m k v` is an old entry or the new pair. -/
theorem mem_mapSet (m : List (Nat × SplitDoc)) (k : Nat) (v : SplitDoc) (e : Nat × SplitDoc)
    (h : e ∈ mapSet m k v) : e ∈ m ∨ e = (k, v) := by
  unfold mapSet at h
  split at h
  · rcases List.mem_map.mp h with ⟨e', he', hfe⟩
    by_cases hk : e'.1 == k
    · right
      rw [if_pos hk] at hfe
      exact hfe.symm
    · left
      rw [if_neg hk] at hfe
      exact hfe ▸ he'
  · rcases List.mem_append.mp h with h | h
    · exact Or.inl h
    · exact Or.inr (List.mem_singleton.mp h)

/-- `mapSet` keeps every existing key. -/
theorem mapSet_keeps_key (m : List (Nat × SplitDoc)) (k : Nat) (v : SplitDoc)
    (e : Nat × SplitDoc) (h : e ∈ m) : ∃ e' ∈ mapSet m k v, e'.1 = e.1 := by
  unfold mapSet
  split
  · refine ⟨if e.1 == k then (k, v) else e, List.mem_map_of_mem _ h, ?_⟩
    by_cases hk : e.1 == k
    · rw [if_pos hk]
      exact (beq_iff_eq.mp hk).symm
    · rw [if_neg hk]
  · exact ⟨e, List.mem_append_left _ h, rfl⟩

/-- After `mapSet m k v` the key `k` is present. -/
theorem mapSet_has_key (m : List (Nat × SplitDoc)) (k : Nat) (v : SplitDoc) :
    ∃ e ∈ mapSet m k v, e.1 = k := by
  unfold mapSet
  split
  · rename_i hany
    rcases List.any_eq_true.mp hany with ⟨e', he', hk⟩
    refine ⟨(k, v), ?_, rfl⟩
    have h2 : (if e'.1 == k then (k, v) else e') ∈
        m.map (fun e => if e.1 == k then (k, v) else e) :=
      List.mem_map_of_mem (fun e => if e.1 == k then (k, v) else e) he'
    rw [if_pos hk] at h2
    exact h2
  · exact ⟨(k, v), List.mem_append_right _ (List.mem_singleton.mpr rfl), rfl⟩

/-- The key list of `mapSet`: unchanged on overwrite, extended by a fresh
key otherwise. -/
theorem mapSet_keys (m : List (Nat × SplitDoc)) (k : Nat) (v : SplitDoc) :
    (mapSet m k v).map Prod.fst =
      if m.any (fun e => e.1 == k) then m.map Prod.fst else m.map Prod.fst ++ [k] := by
  unfold mapSet
  by_cases hany : (m.any fun e => e.1 == k) = true
  · rw [if_pos hany, if_pos hany, List.map_map]
    apply List.map_congr_left
    intro e _
    simp only [Function.comp_apply]
    by_cases hk : (e.1 == k) = true
    · rw [if_pos hk]
      exact (beq_iff_eq.mp hk).symm
    · rw [if_neg hk]
  · rw [if_neg hany, if_neg hany, List.map_append]
    rfl

/-- `mapSet` preserves key distinctness. -/
theorem mapSet_keys_nodup (m : List (Nat × SplitDoc)) (k : Nat) (v : SplitDoc)
    (h : (m.map Prod.fst).Nodup) : ((mapSet m k v).map Prod.fst).Nodup := by
  rw [mapSet_keys]
  split
  · exact h
  · rename_i hany
    rw [List.nodup_append]
    refine ⟨h, List.nodup_singleton k, ?_⟩
    intro a ha hb
    rw [List.mem_singleton] at hb
    subst hb
    rcases List.mem_map.mp ha with ⟨e, he, hk⟩
    rw [Bool.not_eq_true] at hany
    have hfalse := List.any_eq_false.mp hany e he
    simp [hk] at hfalse

/-- The map built from accumulator `acc`: a generalization of `buildIdMap`
for induction. -/
def buildIdMapFrom (acc : List (Nat × SplitDoc)) (l : List SplitDoc) :
    List (Nat × SplitDoc) :=
  l.foldl (fun m s => mapSet m s.splitId s) acc

/-- `buildIdMap` is the accumulator version started empty. -/
theorem buildIdMap_eq_from (l : List SplitDoc) : buildIdMap l = buildIdMapFrom [] l := rfl

/-- Every entry of the built map is an old accumulator entry or a
correctly-keyed document of the input. -/
theorem mem_buildIdMapFrom (l : List SplitDoc) :
    ∀ (acc : List (Nat × SplitDoc)) (e : Nat × SplitDoc), e ∈ buildIdMapFrom acc l →
      e ∈ acc ∨ (e.2 ∈ l ∧ e.1 = e.2.splitId) := by
  induction l with
  | nil =>
    intro acc e he
    exact Or.inl he
  | cons s l ih =>
    intro acc e he
    rcases ih (mapSet acc s.splitId s) e he with hacc | ⟨hmem, hkey⟩
    · rcases mem_mapSet acc s.splitId s e hacc with h | h
      · exact Or.inl h
      · refine Or.inr ⟨?_, ?_⟩
        · rw [h]
          exact List.mem_cons_self s l
        · rw [h]
      
    · exact Or.inr ⟨List.mem_cons_of_mem s hmem, hkey⟩

/-- Keys present in the accumulator survive the whole build. -/
theorem buildIdMapFrom_keeps_key (l : List SplitDoc) :
    ∀ (acc : List (Nat × SplitDoc)) (e : Nat × SplitDoc), e ∈ acc →
      ∃ e' ∈ buildIdMapFrom acc l, e'.1 = e.1 := by
  induction l with
  | nil =>
    intro acc e he
    exact ⟨e, he, rfl⟩
  | cons s l ih =>
    intro acc e he
    rcases mapSet_keeps_key acc s.splitId s e he with ⟨e'', he'', hk⟩
    rcases ih (mapSet acc s.splitId s) e'' he'' with ⟨e', he', hk'⟩
    exact ⟨e', he', hk'.trans hk⟩

/-- Every input document has its splitId as a key of the built map. -/
theorem buildIdMapFrom_has_key (l : List SplitDoc) :
    ∀ (acc : List (Nat × SplitDoc)) (s : SplitDoc), s ∈ l →
      ∃ e ∈ buildIdMapFrom acc l, e.1 = s.splitId := by
  induction l with
  | nil =>
    intro acc s hs
    cases hs
  | cons s' l ih =>
    intro acc s hs
    rcases List.mem_cons.mp hs with h | h
    · subst h
      rcases mapSet_has_key acc s.splitId s with ⟨e'', he'', hk⟩
      rcases buildIdMapFrom_keeps_key l (mapSet acc s.splitId s) e'' he'' with ⟨e, he, hk'⟩
      exact ⟨e, he, hk'.trans hk⟩
    · exact ih (mapSet acc s'.splitId s') s h

/-- The built map never duplicates a key. -/
theorem buildIdMapFrom_keys_nodup (l : List SplitDoc) :
    ∀ (acc : List (Nat × SplitDoc)), (acc.map Prod.fst).Nodup →
      ((buildIdMapFrom acc l).map Prod.fst).Nodup := by
  induction l with
  | nil =>
    intro acc h
    exact h
  | cons s l ih =>
    intro acc h
    exact ih (mapSet acc s.splitId s) (mapSet_keys_nodup acc s.splitId s h)

/-- Deduplication keeps exactly the input documents when splitIds identify
documents uniquely in the input. -/
theorem mem_dedupBySplitId (l : List SplitDoc)
    (huniq : ∀ a ∈ l, ∀ b ∈ l, a.splitId = b.splitId → a = b) (d : SplitDoc) :
    d ∈ dedupBySplitId l ↔ d ∈ l := by
  constructor
  · intro h
    rcases List.mem_map.mp h with ⟨e, he, hd⟩
    rcases mem_buildIdMapFrom l [] e (buildIdMap_eq_from l ▸ he) with h0 | ⟨hmem, -⟩
    · cases h0
    · exact hd ▸ hmem
  · intro h
    rcases buildIdMapFrom_has_key l [] d h with ⟨e, he, hk⟩
    rcases mem_buildIdMapFrom l [] e (buildIdMap_eq_from l ▸ he) with h0 | ⟨hmem, hkey⟩
    · cases h0
    · have : e.2 = d := huniq e.2 hmem d h (by rw [← hkey, hk])
      rw [← this]
      exact List.mem_map_of_mem _ (buildIdMap_eq_from l ▸ he)

/-- The deduplicated list carries pairwise-distinct splitIds. -/
theorem dedupBySplitId_ids_nodup (l : List SplitDoc) :
    ((dedupBySplitId l).map (fun s => s.splitId)).Nodup := by
  have hkeys := buildIdMapFrom_keys_nodup l [] List.nodup_nil
  have heq : (dedupBySplitId l).map (fun s => s.splitId) =
      (buildIdMapFrom [] l).map Prod.fst := by
    unfold dedupBySplitId
    rw [buildIdMap_eq_from, List.map_map]
    apply List.map_congr_left
    intro e he
    rcases mem_buildIdMapFrom l [] e he with h0 | ⟨-, hkey⟩
    · cases h0
    · exact hkey.symm
  rw [heq]
  exact hkeys

/-- A `limit` stage only drops elements. -/
theorem mem_of_mem_applyLimit (limit : Option Nat) (l : List SplitDoc) (d : SplitDoc)
    (h : d ∈ applyLimit limit l) : d ∈ l := by
  unfold applyLimit at h
  cases limit with
  | none => exact h
  | some n =>
    have h2 : d ∈ (if n = 0 then l else List.take n l) := h
    by_cases hn : n = 0
    · rw [if_pos hn] at h2
      exact h2
    · rw [if_neg hn] at h2
      exact List.mem_of_mem_take h2

/-- A `skip` stage only drops elements. -/
theorem mem_of_mem_applySkip (skip : Option Nat) (l : List SplitDoc) (d : SplitDoc)
    (h : d ∈ applySkip skip l) : d ∈ l := by
  unfold applySkip at h
  cases skip with
  | none => exact h
  | some n =>
    have h2 : d ∈ (if n = 0 then l else List.drop n l) := h
    by_cases hn : n = 0
    · rw [if_pos hn] at h2
      exact h2
    · rw [if_neg hn] at h2
      exact List.mem_of_mem_drop h2

/-- Sorting permutes, so membership is unchanged. -/
theorem mem_sortByCreatedDesc (l : List SplitDoc) (d : SplitDoc) :
    d ∈ sortByCreatedDesc l ↔ d ∈ l := by
  unfold sortByCreatedDesc
  exact (List.perm_insertionSort createdGE l).mem_iff

/-- Creator-query results come from the store. -/
theorem mem_of_mem_findByCreator (store : SplitStore) (a : Str) (o : QueryOpts)
    (d : SplitDoc) (h : d ∈ findByCreator store a o) : d ∈ store := by
  unfold findByCreator at h
  have h1 := mem_of_mem_applySkip _ _ _ (mem_of_mem_applyLimit _ _ _ h)
  rw [mem_sortByCreatedDesc] at h1
  exact List.mem_of_mem_filter h1

/-- Participant-query results come from the store. -/
theorem mem_of_mem_findByParticipant (store : SplitStore) (a : Str) (o : QueryOpts)
    (d : SplitDoc) (h : d ∈ findByParticipant store a o) : d ∈ store := by
  unfold findByParticipant at h
  have h1 := mem_of_mem_applySkip _ _ _ (mem_of_mem_applyLimit _ _ _ h)
  rw [mem_sortByCreatedDesc] at h1
  exact List.mem_of_mem_filter h1

/-- C4 (amended): for every format-valid wallet address, on a store whose
splitIds identify documents uniquely, `getSplits(address, options)`
succeeds and equals a merged list — containing exactly the splits returned
by `getSplitsByCreator(address, options)` or
`getSplitsByParticipant(address, options)` (the sub-queries already carry
the full options, skip and limit included), deduplicated by `splitId` and
sorted by creation time descending — to which `skip` and `limit` are then
applied a second time. -/
theorem getSplits_amended (store : SplitStore) (walletAddress : Str) (opts : QueryOpts)
    (hvalid : matchesAddrRegex (jsToLower walletAddress) = true)
    (huniq : ∀ a ∈ store, ∀ b ∈ store, a.splitId = b.splitId → a = b) :
    ∃ merged : List SplitDoc,
      getSplits store walletAddress opts =
        .ok (applyLimit opts.limit (applySkip opts.skip merged)) ∧
      (∀ d, d ∈ merged ↔
        (d ∈ getSplitsByCreator store walletAddress opts ∨
          d ∈ getSplitsByParticipant store walletAddress opts)) ∧
      List.Sorted createdGE merged ∧
      (merged.map (fun s => s.splitId)).Nodup := by
  refine ⟨sortByCreatedDesc (dedupBySplitId
      (findByCreator store (jsToLower walletAddress) opts ++
        findByParticipant store (jsToLower walletAddress) opts)), ?_, ?_, ?_, ?_⟩
  · unfold getSplits
    rw [if_neg (by simp [hvalid])]
  · intro d
    have hsub : ∀ x ∈ findByCreator store (jsToLower walletAddress) opts ++
        findByParticipant store (jsToLower walletAddress) opts, x ∈ store := by
      intro x hx
      rcases List.mem_append.mp hx with h | h
      · exact mem_of_mem_findByCreator _ _ _ _ h
      · exact mem_of_mem_findByParticipant _ _ _ _ h
    have huniq2 : ∀ a ∈ findByCreator store (jsToLower walletAddress) opts ++
        findByParticipant store (jsToLower walletAddress) opts,
        ∀ b ∈ findByCreator store (jsToLower walletAddress) opts ++
          findByParticipant store (jsToLower walletAddress) opts,
        a.splitId = b.splitId → a = b :=
      fun a ha b hb => huniq a (hsub a ha) b (hsub b hb)
    rw [mem_sortByCreatedDesc, mem_dedupBySplitId _ huniq2, List.mem_append]
    exact Iff.rfl
  · exact List.sorted_insertionSort createdGE _
  · have hperm := (List.perm_insertionSort createdGE (dedupBySplitId
      (findByCreator store (jsToLower walletAddress) opts ++
        findByParticipant store (jsToLower walletAddress) opts))).map
      (fun s => s.splitId)
    exact hperm.nodup_iff.mpr (dedupBySplitId_ids_nodup _)

/-- C4 witness: the amended characterization at the concrete two-split
store and skip-1 options. -/
theorem getSplits_amended_witness :
    matchesAddrRegex (jsToLower sampleLowerAddr) = true ∧
    (∀ a ∈ c4store, ∀ b ∈ c4store, a.splitId = b.splitId → a = b) ∧
    (∃ merged : List SplitDoc,
      getSplits c4store sampleLowerAddr c4opts =
        .ok (applyLimit c4opts.limit (applySkip c4opts.skip merged)) ∧
      (∀ d, d ∈ merged ↔
        (d ∈ getSplitsByCreator c4store sampleLowerAddr c4opts ∨
          d ∈ getSplitsByParticipant c4store sampleLowerAddr c4opts)) ∧
      List.Sorted createdGE merged ∧
      (merged.map (fun s => s.splitId)).Nodup) :=
  ⟨by decide, by decide,
    getSplits_amended c4store sampleLowerAddr c4opts (by decide) (by decide)⟩
